import Mathlib

/-!
Verification of the Hacrandevu backend core: the monitor scheduler, the
result-dispatch filters, the session pool, the per-identity executor
discipline and the bot-runner façade.

The definitions below are shallow embeddings of the Python source under
`src/backend/` (`scheduler.py`, `session_manager.py`, `bot_runner.py`,
`telegram_bot.py`).  Pure functions are translated directly; stateful code
is translated as explicit state passing; Python exceptions are translated
as `Except` values; the opaque automation engine (out of scope per the
design document) is a behaviour parameter.
-/

namespace Hacrandevu

/-! ## Dates and times

`scheduler.py` parses slot dates with `datetime.strptime(s, "%d.%m.%Y")`
and slot times with `datetime.strptime(s, "%H:%M")`, and compares the
resulting `datetime`/`time` values chronologically.  We model a parsed
date as a `(year, month, day)` triple and a parsed time as an
`(hour, minute)` pair, with lexicographic chronological order.  The
parser accepts ASCII-digit components (day/month 1–2 digits in range,
year exactly 4 digits, calendar-valid day) and rejects everything else,
mirroring CPython's `strptime` on the formats above. -/

structure Date where
  year : Nat
  month : Nat
  day : Nat
deriving DecidableEq, Repr

/-- Chronological order on dates (how Python compares `datetime` values
that only differ in their date components). -/
def Date.le (a b : Date) : Bool :=
  a.year < b.year ||
    (a.year == b.year &&
      (a.month < b.month || (a.month == b.month && a.day ≤ b.day)))

structure Time where
  hour : Nat
  minute : Nat
deriving DecidableEq, Repr

/-- Chronological order on times-of-day (Python `time` comparison). -/
def Time.le (a b : Time) : Bool :=
  a.hour < b.hour || (a.hour == b.hour && a.minute ≤ b.minute)

/-- `str.split(sep)` for a one-character separator, on character lists
(e.g. splitting `"a-b"` at `'-'` gives `["a", "b"]`, and splitting `""`
gives `[""]`, exactly as in Python). -/
def splitOnChar (c : Char) : List Char → List (List Char)
  | [] => [[]]
  | x :: xs =>
    match splitOnChar c xs with
    | [] => [[]]
    | y :: ys => if x = c then [] :: y :: ys else (x :: y) :: ys

/-- `str.strip()` (whitespace removal at both ends). -/
def stripChars (l : List Char) : List Char :=
  ((l.dropWhile Char.isWhitespace).reverse.dropWhile Char.isWhitespace).reverse

/-- The numeric value of a list of ASCII digits; `none` if the list is
empty or contains a non-digit. -/
def digitsToNat : List Char → Option Nat
  | [] => none
  | cs =>
    if cs.all Char.isDigit then
      some (cs.foldl (fun acc c => acc * 10 + (c.toNat - '0'.toNat)) 0)
    else none

/-- A field of 1 or 2 ASCII digits whose value lies in `[lo, hi]`
(the shape `strptime` accepts for `%d`, `%m`, `%H`, `%M` fields). -/
def parseField2 (cs : List Char) (lo hi : Nat) : Option Nat :=
  if cs.length = 0 || 2 < cs.length then none
  else match digitsToNat cs with
    | none => none
    | some n => if lo ≤ n && n ≤ hi then some n else none

/-- Number of days in a month, with the Gregorian leap rule
(`datetime` rejects e.g. `31.02.2026` as out of range). -/
def daysInMonth (month year : Nat) : Nat :=
  if month = 2 then
    if year % 4 = 0 && (year % 100 ≠ 0 || year % 400 = 0) then 29 else 28
  else if month = 4 || month = 6 || month = 9 || month = 11 then 30
  else 31

def parseDateChars (cs : List Char) : Option Date :=
  match splitOnChar '.' cs with
  | [ds, ms, ys] =>
    match parseField2 ds 1 31, parseField2 ms 1 12 with
    | some d, some m =>
      if ys.length = 4 then
        match digitsToNat ys with
        | some y => if d ≤ daysInMonth m y then some ⟨y, m, d⟩ else none
        | none => none
      else none
    | _, _ => none
  | _ => none

/-- `datetime.strptime(s, "%d.%m.%Y")`: `some` on a calendar-valid
`DD.MM.YYYY` string, `none` where Python raises `ValueError`. -/
def parseDate (s : String) : Option Date :=
  parseDateChars s.data

def parseTimeChars (cs : List Char) : Option Time :=
  match splitOnChar ':' cs with
  | [hs, ms] =>
    match parseField2 hs 0 23, parseField2 ms 0 59 with
    | some h, some m => some ⟨h, m⟩
    | _, _ => none
  | _ => none

/-- `datetime.strptime(s, "%H:%M").time()`: `some` on a valid `HH:MM`
string, `none` where Python raises `ValueError`. -/
def parseTime (s : String) : Option Time :=
  parseTimeChars s.data

/-! ## `scheduler._date_matches`

Direct translation of `_date_matches(date_str, date_range)` from
`scheduler.py`.  The Python code compares against today's and tomorrow's
`"%d.%m.%Y"`-formatted strings in the `"bugun"` branch; those two strings
are passed here as parameters. -/

def date_matches (today tomorrow : String) (date_str date_range : String) : Bool :=
  if date_range = "bugun" then
    decide (date_str = today) || decide (date_str = tomorrow)
  else
    match parseDate date_str with
    | none => true
    | some d =>
      if date_range.data.contains '-' then
        match splitOnChar '-' date_range.data with
        | [p0, p1] =>
          match parseDateChars (stripChars p0), parseDateChars (stripChars p1) with
          | some s, some e => Date.le s d && Date.le d e
          | _, _ => true
        | _ => true
      else
        match parseDateChars (stripChars date_range.data) with
        | some target => decide (d = target)
        | none => true

/-! ## `scheduler._time_matches`

Direct translation of `_time_matches(time_str, time_range)`.  The Python
body parses the two range bounds inside one `try`: a nonempty bound that
fails to parse makes the whole filter pass (`return True`); an empty
bound is `None`.  `tryParseBound` reproduces that: `.error ()` is the
`ValueError` path, `.ok none` the absent bound. -/

def tryParseBound (cs : List Char) : Except Unit (Option Time) :=
  if cs = [] then .ok none
  else match parseTimeChars cs with
    | some t => .ok (some t)
    | none => .error ()

def time_matches (time_str time_range : String) : Bool :=
  if time_range = "" || time_range = "Yok" then true
  else
    match parseTimeChars (stripChars time_str.data) with
    | none => true
    | some t =>
      if time_range.data.contains '-' then
        match splitOnChar '-' time_range.data with
        | p0 :: p1 :: _ =>
          match tryParseBound (stripChars p0), tryParseBound (stripChars p1) with
          | .error _, _ => true
          | _, .error _ => true
          | .ok (some s), .ok (some e) => Time.le s t && Time.le t e
          | .ok (some s), .ok none => Time.le s t
          | .ok none, .ok (some e) => Time.le t e
          | .ok none, .ok none => true
        | _ => true
      else true

/-! ## `scheduler._filter_probed` and the auto-book selection -/

/-- One entry of the `probed_subtimes` list handed to
`_handle_monitor_result`: a date, an hour slot, and its sub-times. -/
structure Slot where
  date : String
  hour : String
  subtimes : List String
deriving DecidableEq, Repr

/-- Direct translation of `_filter_probed(probed, date_range, time_range)`.
An item is skipped when a nonempty, non-`"Yok"` date filter rejects its
date; its subtimes are filtered by a nonempty, non-`"Yok"` time filter;
items whose filtered subtimes are empty are dropped. -/
def filter_probed (today tomorrow : String) (probed : List Slot)
    (date_range time_range : String) : List Slot :=
  probed.filterMap fun item =>
    if date_range ≠ "" ∧ date_range ≠ "Yok" ∧
        ¬ (date_matches today tomorrow item.date date_range = true) then
      none
    else
      let matching_times :=
        if time_range ≠ "" ∧ time_range ≠ "Yok" then
          item.subtimes.filter (fun st => time_matches st time_range)
        else item.subtimes
      if matching_times.isEmpty then none
      else some ⟨item.date, item.hour, matching_times⟩

/-- The booking target built by the `auto_book` branch of
`_handle_monitor_result`: `last = filtered[-1]`,
`target_subtime = last["subtimes"][-1]`.  Python would raise `IndexError`
on an empty list; that impossibility is modelled by `Option`. -/
structure BookTarget where
  date : String
  hour : String
  subtime : String
deriving DecidableEq, Repr

def pick_book_target (filtered : List Slot) : Option BookTarget :=
  match filtered.getLast? with
  | none => none
  | some last =>
    match last.subtimes.getLast? with
    | none => none
    | some st => some ⟨last.date, last.hour, st⟩

/-! ## `scheduler.monitor_loop` — the due check

The wake loop computes `elapsed = (now - last_exec).total_seconds() / 60.0`
and marks the monitor due when `elapsed >= interval_minutes`, treating a
falsy `last_checked` as immediately due.  Timestamps are modelled as epoch
seconds (`Int`); the division is exact rational division, as in Python.
`last_checked` is `none` for a NULL column; the scheduler itself only ever
writes `datetime.now().isoformat()` there, which always parses back, so a
stored non-null value is a valid timestamp (`monitor_loop`'s `ValueError`
fallback is unreachable for store-written values). -/

def should_run (now : Int) (last_checked : Option Int) (interval_minutes : Nat) : Bool :=
  match last_checked with
  | none => true
  | some last_exec =>
    decide ((((now - last_exec : Int) : ℚ) / 60) ≥ (interval_minutes : ℚ))

/-! ## `scheduler._run_monitor` — event order

`_run_monitor` is a sequence of store and engine effects; we record the
order in which they happen as a trace, as a function of the branch
conditions: whether the monitor is still active on re-validation, whether
the owning patient record exists, whether the engine call returns without
raising, and whether the result reports availability. -/

inductive MonitorEvent where
  | checkStillActive
  | fetchPatient
  | deactivateMonitor
  | writeLastChecked
  | registerCancel
  | engineScan
  | handleResult
  | unregisterCancel
deriving DecidableEq, Repr

def run_monitor_trace (still_active patient_exists scan_ok has_available : Bool) :
    List MonitorEvent :=
  if still_active = false then [.checkStillActive]
  else if patient_exists = false then
    [.checkStillActive, .fetchPatient, .deactivateMonitor]
  else
    [.checkStillActive, .fetchPatient, .writeLastChecked, .registerCancel,
      .engineScan] ++
    (if scan_ok then
      [.writeLastChecked] ++ (if has_available then [.handleResult] else [])
    else []) ++
    [.unregisterCancel]

/-! ## `session_manager.SessionManager.close_session`

The pool is the `_sessions` dict (unique keys).  `close_session` pops the
entry under the lock, returns if it was absent, then attempts to close the
page and then the session, each inside its own `try/except: pass`.  The
two close attempts are behaviour parameters (`Except` values); `swallow`
is the `except Exception: pass` around each. -/

structure PooledSession where
  logged_in : Bool
  search_url : String
deriving DecidableEq, Repr

def SessionPool := List (String × PooledSession)
deriving DecidableEq

def pool_lookup (pool : SessionPool) (tc : String) : Option PooledSession :=
  (List.find? (fun e => decide (e.1 = tc)) pool).map Prod.snd

def swallow (_e : Except String Unit) : Unit := ()

def close_session (pool : SessionPool) (tc : String)
    (page_close session_close : Except String Unit) : SessionPool :=
  match pool_lookup pool tc with
  | none => pool
  | some _ =>
    let _ := swallow page_close
    let _ := swallow session_close
    List.filter (fun e => !(decide (e.1 = tc))) pool

/-! ## `telegram_bot._trigger_booking` — monitor deactivation/reactivation

The monitors table: `id` is the primary key (unique), `patient_id` the
owning identity, `is_active` the flag this flow writes.
`update_monitor(id, is_active=b)` updates the row with that id.

Before booking, `_trigger_booking` deactivates every *active* monitor of
the patient (iterating over a snapshot of `get_active_monitors()`).  When
the booking fails, `_run` reactivates every monitor of the patient that is
*inactive at that point* (iterating over a snapshot of
`get_all_monitors()`). -/

structure MonitorRec where
  id : Nat
  patient_id : Nat
  is_active : Bool
deriving DecidableEq, Repr

def update_monitor_active (db : List MonitorRec) (mid : Nat) (b : Bool) :
    List MonitorRec :=
  db.map fun m => if m.id = mid then { m with is_active := b } else m

def get_active_monitors (db : List MonitorRec) : List MonitorRec :=
  db.filter fun m => m.is_active

def deactivate_for_booking (db : List MonitorRec) (pid : Nat) : List MonitorRec :=
  (List.filter (fun m => decide (m.patient_id = pid)) (get_active_monitors db)).foldl
    (fun acc m => update_monitor_active acc m.id false) db

def reactivate_after_failure (db : List MonitorRec) (pid : Nat) : List MonitorRec :=
  (List.filter (fun m => decide (m.patient_id = pid) && !m.is_active) db).foldl
    (fun acc m => update_monitor_active acc m.id true) db

/-- The auto-book failure path end to end: deactivate the patient's active
monitors, attempt the booking (which fails), reactivate. -/
def failed_booking_flow (db : List MonitorRec) (pid : Nat) : List MonitorRec :=
  reactivate_after_failure (deactivate_for_booking db pid) pid

/-! ## `bot_runner.run_bot_with_session`

Modelled from the spec: the automation engine (`HacettepeBot.run_with_page`
and the `BotCancelled` exception, which `bot_runner.py` imports from
`check_randevu`) is not present in the version of `check_randevu.py` under
`src/`; per the design document (§1, §6) it is an external collaborator
whose one run either returns an exit code together with a structured
result carrying a `status` field, observes the cancellation signal
(`BotCancelled`), or raises an error.  `EngineOutcome` is that behaviour.

The façade's control flow is translated branch for branch from
`run_bot_with_session`:
* a pooled, logged-in session is reused (`skip_login=True`); on a
  non-cancellation failure of that attempt the stale session is closed, a
  fresh one is created and the run is retried once with
  `skip_login=False`; `BotCancelled` is re-raised without retry;
* otherwise a fresh session is created and run with `skip_login=False`;
  on failure the session is closed and the error re-raised;
* the outer handlers turn `BotCancelled` into a `CANCELLED` envelope and
  any other exception into an `ERROR` envelope (closing the session, the
  close itself swallowed), so the caller always receives a dict.

The per-identity pool slot is threaded through explicitly; exceptions
carry the pool state at raise time. -/

structure EngineResult where
  status : String
deriving DecidableEq, Repr

inductive EngineOutcome where
  | ok (exit_code : Int) (res : EngineResult)
  | cancelled
  | err (msg : String)
deriving DecidableEq, Repr

/-- The dictionary returned by `run_bot_with_session`; `none` fields model
absent keys. -/
structure RunResultDict where
  status : Option String
  error : Option String
  exit_code : Option Int
  session_reused : Option Bool
deriving DecidableEq, Repr

inductive PyExc where
  | botCancelled
  | exc (msg : String)
deriving DecidableEq, Repr

/-- `result = bot.result or {}; result["exit_code"] = ...;
result["session_reused"] = ...` on the success path. -/
def mkRunResult (res : EngineResult) (code : Int) (reused : Bool) : RunResultDict :=
  { status := some res.status, error := none,
    exit_code := some code, session_reused := some reused }

/-- A session fresh out of `SessionManager.create_session`: not logged in,
no recorded search URL. -/
def freshSession : PooledSession := ⟨false, ""⟩

/-- The body of the outer `try` in `run_bot_with_session`.  `first_run` is
the behaviour of the first engine invocation, `retry_run` of the
retry-after-stale-session invocation, `create` of
`SessionManager.create_session`, and `post_login_url` the URL recorded
after a successful fresh login. -/
def runBotInner (pool : Option PooledSession)
    (first_run retry_run : EngineOutcome) (create : Except String Unit)
    (post_login_url : String) :
    Except (PyExc × Option PooledSession) (Option PooledSession × RunResultDict) :=
  let session_reused := match pool with
    | some bs => bs.logged_in
    | none => false
  if session_reused then
    match first_run with
    | .ok code res => .ok (pool, mkRunResult res code true)
    | .cancelled => .error (.botCancelled, pool)
    | .err _ =>
      match create with
      | .error e => .error (.exc e, none)
      | .ok _ =>
        match retry_run with
        | .ok code res =>
          .ok (some ⟨true, post_login_url⟩, mkRunResult res code false)
        | .cancelled => .error (.botCancelled, some freshSession)
        | .err m => .error (.exc m, some freshSession)
  else
    match create with
    | .error e => .error (.exc e, none)
    | .ok _ =>
      match first_run with
      | .ok code res =>
        .ok (some ⟨true, post_login_url⟩, mkRunResult res code false)
      | .cancelled => .error (.botCancelled, none)
      | .err m => .error (.exc m, none)

def run_bot_with_session (pool : Option PooledSession)
    (first_run retry_run : EngineOutcome) (create : Except String Unit)
    (post_login_url : String) : Option PooledSession × RunResultDict :=
  match runBotInner pool first_run retry_run create post_login_url with
  | .ok r => r
  | .error (.botCancelled, p) =>
    (p, { status := some "CANCELLED", error := some "Arama iptal edildi.",
          exit_code := some 1, session_reused := some false })
  | .error (.exc m, _) =>
    (none, { status := some "ERROR", error := some m,
             exit_code := some 1, session_reused := some false })

/-! ## Per-identity executors and the global bot lock

`SessionManager.get_executor` hands out one `max_workers=1` executor per
identity, so the runs submitted for one identity execute one at a time in
submission order.  The body of `run_bot_with_session`, however, executes
entirely under `check_randevu._bot_lock`, a single process-global
`threading.Lock`.

We model a finite set of submitted runs as a list of phases (listed in
submission order), together with the parallel list `idents` giving each
run's identity.  A run is `pending` until its worker both reaches it and
acquires `_bot_lock`, `engine` while it holds the lock and executes the
automation engine, and `done` afterwards.  `start` requires the FIFO
discipline of the identity's single worker (all earlier runs of the same
identity finished) and the global lock to be free (no run anywhere in its
`engine` phase); `finish` releases the lock. -/

inductive Phase where
  | pending
  | engine
  | done
deriving DecidableEq, Repr

inductive RunStep (idents : List Nat) : List Phase → List Phase → Prop
  | start (s : List Phase) (i : Nat) (hi : i < s.length)
      (hpend : s.get ⟨i, hi⟩ = Phase.pending)
      (hlock : ∀ j (hj : j < s.length), s.get ⟨j, hj⟩ ≠ Phase.engine)
      (hfifo : ∀ j (hj : j < s.length), j < i → idents.get? j = idents.get? i →
        s.get ⟨j, hj⟩ = Phase.done) :
      RunStep idents s (s.set i Phase.engine)
  | finish (s : List Phase) (i : Nat) (hi : i < s.length)
      (heng : s.get ⟨i, hi⟩ = Phase.engine) :
      RunStep idents s (s.set i Phase.done)

/-- States reachable from `n` freshly submitted runs. -/
def RunReachable (idents : List Nat) (n : Nat) (s : List Phase) : Prop :=
  Relation.ReflTransGen (RunStep idents) (List.replicate n Phase.pending) s

/-- No two runs — of any identities — are inside the automation engine at
the same time. -/
def AtMostOneEngine (s : List Phase) : Prop :=
  ∀ i j (hi : i < s.length) (hj : j < s.length), i ≠ j →
    s.get ⟨i, hi⟩ = Phase.engine → s.get ⟨j, hj⟩ = Phase.engine → False

/-- Runs of one identity proceed in submission order: a later run of an
identity has started only if every earlier run of that identity finished. -/
def FifoOrder (idents : List Nat) (s : List Phase) : Prop :=
  ∀ i j (hi : i < s.length) (hj : j < s.length), j < i →
    idents.get? j = idents.get? i → s.get ⟨i, hi⟩ ≠ Phase.pending →
    s.get ⟨j, hj⟩ = Phase.done

/-- `a`'s slot date is no later than `b`'s, as far as both parse. -/
def slot_date_le (a b : Slot) : Prop :=
  ∀ da db, parseDate a.date = some da → parseDate b.date = some db →
    Date.le da db = true

/-- Sub-time `x` is no later than `y`, as far as both parse. -/
def subtime_le (x y : String) : Prop :=
  ∀ tx ty, parseTime x = some tx → parseTime y = some ty →
    Time.le tx ty = true

end Hacrandevu

/-! # Theorems -/

namespace Hacrandevu

/-! ## Helper lemmas -/

/-- Initially every run is pending. -/
lemma runReachable_init_get (n i : Nat)
    (hi : i < (List.replicate n Phase.pending).length) :
    (List.replicate n Phase.pending).get ⟨i, hi⟩ = Phase.pending :=
  List.get_replicate _ _

/-- The global `_bot_lock` keeps every reachable state to at most one run
inside the engine, whatever the identities are. -/
lemma reachable_atMostOneEngine (idents : List Nat) (n : Nat) (s : List Phase)
    (h : RunReachable idents n s) : AtMostOneEngine s := by
  induction h with
  | refl =>
    intro i j hi hj hne hei _
    rw [runReachable_init_get] at hei
    exact absurd hei (by decide)
  | @tail b t hab hstep ih =>
    cases hstep with
    | start k hk hpend hlock hfifo =>
      intro i j hi hj hne hei hej
      by_cases hik : i = k
      · have hjk : k ≠ j := fun hkj => hne (hik.trans hkj)
        rw [List.get_set_ne hjk] at hej
        exact hlock j (by simpa using hj) hej
      · have hki : k ≠ i := fun hki => hik hki.symm
        rw [List.get_set_ne hki] at hei
        exact hlock i (by simpa using hi) hei
    | finish k hk heng =>
      intro i j hi hj hne hei hej
      by_cases hik : i = k
      · subst hik
        rw [List.get_set_eq] at hei
        exact absurd hei (by decide)
      · by_cases hjk : j = k
        · subst hjk
          rw [List.get_set_eq] at hej
          exact absurd hej (by decide)
        · have hki : k ≠ i := fun h' => hik h'.symm
          have hkj : k ≠ j := fun h' => hjk h'.symm
          rw [List.get_set_ne hki] at hei
          rw [List.get_set_ne hkj] at hej
          exact ih i j (by simpa using hi) (by simpa using hj) hne hei hej

/-- Each identity's single-worker executor runs its submissions in
submission order, in every reachable state. -/
lemma reachable_fifoOrder (idents : List Nat) (n : Nat) (s : List Phase)
    (h : RunReachable idents n s) : FifoOrder idents s := by
  induction h with
  | refl =>
    intro i j hi hj _ _ hip
    exact absurd (runReachable_init_get n i hi) hip
  | @tail b t hab hstep ih =>
    cases hstep with
    | start k hk hpend hlock hfifo =>
      intro i j hi hj hji hid hip
      have hi' : i < b.length := by simpa using hi
      have hj' : j < b.length := by simpa using hj
      by_cases hik : i = k
      · subst hik
        have hjk : i ≠ j := fun h' => Nat.lt_irrefl j (h' ▸ hji)
        rw [List.get_set_ne hjk]
        exact hfifo j hj' hji hid
      · have hki : k ≠ i := fun h' => hik h'.symm
        rw [List.get_set_ne hki] at hip
        have hjd : b.get ⟨j, hj'⟩ = Phase.done := ih i j hi' hj' hji hid hip
        have hjk : j ≠ k := by
          intro h'
          subst h'
          exact absurd (hpend.symm.trans hjd) (by decide)
        have hkj : k ≠ j := fun h' => hjk h'.symm
        rw [List.get_set_ne hkj]
        exact hjd
    | finish k hk heng =>
      intro i j hi hj hji hid hip
      have hi' : i < b.length := by simpa using hi
      have hj' : j < b.length := by simpa using hj
      by_cases hjk : j = k
      · subst hjk
        exact List.get_set_eq _
      · have hkj : k ≠ j := fun h' => hjk h'.symm
        rw [List.get_set_ne hkj]
        by_cases hik : i = k
        · subst hik
          exact ih i j hi' hj' hji hid (by rw [heng]; decide)
        · have hki : k ≠ i := fun h' => hik h'.symm
          rw [List.get_set_ne hki] at hip
          exact ih i j hi' hj' hji hid hip

/-! ## C3 — per-identity serialization and cross-identity parallelism -/

/-- C3, counterexample: two runs submitted for two *distinct* identities
(1 and 2) can never be inside the automation engine simultaneously — the
state in which both hold their engine phase is unreachable, because the
whole body of `run_bot_with_session` executes under the process-global
`check_randevu._bot_lock`.  This refutes the claim that operations for two
distinct identities can execute concurrently and that per-identity
serialization is the sole serialization boundary. -/
theorem c3_distinct_identities_cannot_overlap :
    ¬ RunReachable [1, 2] 2 [Phase.engine, Phase.engine] := by
  intro h
  exact reachable_atMostOneEngine [1, 2] 2 _ h 0 1 (by decide) (by decide)
    (by decide) rfl rfl

/-- C3, amended: in every reachable state, runs submitted for one identity
execute strictly sequentially in submission order (the `max_workers=1`
executor), and additionally — because the body of `run_bot_with_session`
executes under the process-global `_bot_lock` — at most one run of *any*
identity is inside the automation engine at a time; identities do not run
in parallel, so per-identity serialization is not the sole serialization
boundary. -/
theorem c3_serialization (idents : List Nat) (n : Nat) (s : List Phase)
    (h : RunReachable idents n s) :
    AtMostOneEngine s ∧ FifoOrder idents s :=
  ⟨reachable_atMostOneEngine idents n s h, reachable_fifoOrder idents n s h⟩

/-- Witness for `c3_serialization`: the state `[done, engine]` is reachable
for two runs of the same identity 5, and the theorem instantiated there
yields that the earlier run is done once the later one has started. -/
theorem c3_serialization_witness :
    RunReachable [5, 5] 2 [Phase.done, Phase.engine] ∧
      [Phase.done, Phase.engine].get ⟨0, by decide⟩ = Phase.done := by
  have h1 : RunStep [5, 5] (List.replicate 2 Phase.pending)
      [Phase.engine, Phase.pending] :=
    RunStep.start (List.replicate 2 Phase.pending) 0 (by decide) (by decide)
      (by decide) (by decide)
  have h2 : RunStep [5, 5] [Phase.engine, Phase.pending]
      [Phase.done, Phase.pending] :=
    RunStep.finish [Phase.engine, Phase.pending] 0 (by decide) (by decide)
  have h3 : RunStep [5, 5] [Phase.done, Phase.pending]
      [Phase.done, Phase.engine] :=
    RunStep.start [Phase.done, Phase.pending] 1 (by decide) (by decide)
      (by decide) (by decide)
  have hreach : RunReachable [5, 5] 2 [Phase.done, Phase.engine] :=
    Relation.ReflTransGen.head h1 (Relation.ReflTransGen.head h2
      (Relation.ReflTransGen.single h3))
  exact ⟨hreach, (c3_serialization [5, 5] 2 _ hreach).2 1 0 (by decide)
    (by decide) (by decide) rfl (by decide)⟩

/-! ## C1 — the runner façade always returns a result envelope -/

/-- C1: for every pooled-session state, every behaviour of the first
engine invocation, of the retry invocation and of session creation, and
every recorded post-login URL, `run_bot_with_session` returns a result
dictionary that has a `status` key and an `exit_code` key.  The façade is
a total function into result dictionaries — its `except BotCancelled` /
`except Exception` handlers turn every raised exception into a `CANCELLED`
or `ERROR` envelope, so no exception propagates to the caller. -/
theorem c1_run_envelope (pool : Option PooledSession)
    (first_run retry_run : EngineOutcome) (create : Except String Unit)
    (url : String) :
    ((run_bot_with_session pool first_run retry_run create url).2.status).isSome
      = true ∧
    ((run_bot_with_session pool first_run retry_run create url).2.exit_code).isSome
      = true := by
  rcases pool with _ | ⟨lg, su⟩ <;>
    [skip; cases lg] <;>
    rcases first_run with ⟨c1, r1⟩ | _ | m1 <;>
    rcases create with e | _ <;>
    rcases retry_run with ⟨c2, r2⟩ | _ | m2 <;>
    simp [run_bot_with_session, runBotInner, mkRunResult]

/-! ## C5 — the scheduler's due check -/

/-- C5: on a scheduler wake, an active monitor is due iff its
`last_checked` is null or the elapsed minutes since `last_checked` are at
least `interval_minutes`; in particular at `interval_minutes = 15` a
monitor checked 10 minutes (600 s) ago is not due and one checked
16 minutes (960 s) ago is. -/
theorem c5_due_check :
    (∀ (now : Int) (last : Option Int) (interval : Nat),
      should_run now last interval = true ↔
        (last = none ∨
          ∃ t, last = some t ∧ (((now - t : Int) : ℚ) / 60) ≥ (interval : ℚ)))
    ∧ should_run 0 (some (-600)) 15 = false
    ∧ should_run 0 (some (-960)) 15 = true := by
  refine ⟨fun now last interval => ?_, by norm_num [should_run], by norm_num [should_run]⟩
  cases last with
  | none => simp [should_run]
  | some t => simp [should_run]

/-! ## C6 — `last_checked` is written before the scan body -/

/-- C6: in every `_run_monitor` execution that passes re-validation (the
monitor is still active and the owning patient exists), the trace contains
the engine scan, and the first write of `last_checked` occurs strictly
before it — whatever the scan outcome is. -/
theorem c6_last_checked_before_scan (sa pe so av : Bool)
    (h1 : sa = true) (h2 : pe = true) :
    MonitorEvent.engineScan ∈ run_monitor_trace sa pe so av ∧
    (run_monitor_trace sa pe so av).indexOf MonitorEvent.writeLastChecked <
      (run_monitor_trace sa pe so av).indexOf MonitorEvent.engineScan := by
  subst h1; subst h2
  cases so <;> cases av <;> decide

/-- Witness for `c6_last_checked_before_scan` at a concrete run
(validation passes, scan succeeds, availability found). -/
theorem c6_last_checked_before_scan_witness :
    MonitorEvent.engineScan ∈ run_monitor_trace true true true true ∧
    (run_monitor_trace true true true true).indexOf MonitorEvent.writeLastChecked <
      (run_monitor_trace true true true true).indexOf MonitorEvent.engineScan :=
  c6_last_checked_before_scan true true true true rfl rfl

/-! ## C9 — `close_session` is idempotent and total -/

/-- After filtering an identity out of the pool, looking it up finds
nothing. -/
lemma pool_lookup_filter_none (pool : SessionPool) (tc : String) :
    pool_lookup (List.filter (fun e => !(decide (e.1 = tc))) pool) tc = none := by
  simp only [pool_lookup, Option.map_eq_none', List.find?_eq_none,
    List.mem_filter]
  intro e he
  simpa using he.2

/-- C9: `close_session` never raises (it is a total function whatever the
page-close and session-close behaviours are, which are swallowed); after
any close the pool holds no entry for the identity; a second consecutive
close is a no-op; and closing an identity with no pooled session is a
no-op. -/
theorem c9_close_session_idempotent (pool : SessionPool) (tc : String)
    (o1 o2 o3 o4 : Except String Unit) :
    pool_lookup (close_session pool tc o1 o2) tc = none ∧
    close_session (close_session pool tc o1 o2) tc o3 o4 =
      close_session pool tc o1 o2 ∧
    (pool_lookup pool tc = none → close_session pool tc o1 o2 = pool) := by
  have habsent : ∀ (p : SessionPool) (a b : Except String Unit),
      pool_lookup p tc = none → close_session p tc a b = p := by
    intro p a b hp
    unfold close_session
    rw [hp]
  refine ⟨?_, ?_, habsent pool o1 o2⟩
  · unfold close_session
    cases h : pool_lookup pool tc with
    | none => exact h
    | some bs => exact pool_lookup_filter_none pool tc
  · cases h : pool_lookup pool tc with
    | none =>
      rw [habsent pool o1 o2 h, habsent pool o3 o4 h]
    | some bs =>
      have hclosed : close_session pool tc o1 o2 =
          List.filter (fun e => !(decide (e.1 = tc))) pool := by
        unfold close_session
        rw [h]
      rw [hclosed]
      exact habsent _ o3 o4 (pool_lookup_filter_none pool tc)

/-- Witness for `c9_close_session_idempotent`: a pool with no entry for
`"123"`, where close is a no-op. -/
theorem c9_close_session_idempotent_witness :
    pool_lookup ([("456", ⟨true, "u"⟩)] : SessionPool) "123" = none ∧
    close_session ([("456", ⟨true, "u"⟩)] : SessionPool) "123"
      (Except.ok ()) (Except.error "boom") = [("456", ⟨true, "u"⟩)] :=
  ⟨rfl, (c9_close_session_idempotent [("456", ⟨true, "u"⟩)] "123"
    (Except.ok ()) (Except.error "boom") (Except.ok ()) (Except.ok ())).2.2 rfl⟩

/-! ## C10 — invariants of the filtered slot list -/

/-- C10: every item that `_filter_probed` outputs has a non-empty subtimes
list that is a sublist of the subtimes of some input item whose date and
hour it copies unchanged; consequently, whenever the filtered list is
non-empty, the auto-book selection of the last item and its last subtime
is well-defined. -/
theorem c10_filter_probed_invariants (today tomorrow : String)
    (probed : List Slot) (date_range time_range : String) :
    (∀ it, it ∈ filter_probed today tomorrow probed date_range time_range →
      it.subtimes ≠ [] ∧
      ∃ src, src ∈ probed ∧ it.date = src.date ∧ it.hour = src.hour ∧
        it.subtimes.Sublist src.subtimes) ∧
    (filter_probed today tomorrow probed date_range time_range ≠ [] →
      (pick_book_target
        (filter_probed today tomorrow probed date_range time_range)).isSome
        = true) := by
  have hpart1 : ∀ it,
      it ∈ filter_probed today tomorrow probed date_range time_range →
      it.subtimes ≠ [] ∧
      ∃ src, src ∈ probed ∧ it.date = src.date ∧ it.hour = src.hour ∧
        it.subtimes.Sublist src.subtimes := by
    intro it hmem
    rw [filter_probed, List.mem_filterMap] at hmem
    obtain ⟨src, hsrc, hf⟩ := hmem
    by_cases hd : date_range ≠ "" ∧ date_range ≠ "Yok" ∧
        ¬ (date_matches today tomorrow src.date date_range = true)
    · rw [if_pos hd] at hf
      exact absurd hf (by simp)
    · rw [if_neg hd] at hf
      set mt := if time_range ≠ "" ∧ time_range ≠ "Yok" then
          src.subtimes.filter (fun st => time_matches st time_range)
        else src.subtimes with hmt
      by_cases hempty : mt.isEmpty
      · rw [if_pos hempty] at hf
        exact absurd hf (by simp)
      · rw [if_neg hempty] at hf
        have hit : it = ⟨src.date, src.hour, mt⟩ := by
          injection hf with h
          exact h.symm
        subst hit
        refine ⟨by simpa [List.isEmpty_iff] using hempty, src, hsrc, rfl, rfl, ?_⟩
        rw [hmt]
        by_cases ht : time_range ≠ "" ∧ time_range ≠ "Yok"
        · rw [if_pos ht]
          exact List.filter_sublist _
        · rw [if_neg ht]
  refine ⟨hpart1, ?_⟩
  intro hne
  obtain ⟨last, hlast⟩ := Option.isSome_iff_exists.mp
    (List.getLast?_isSome.mpr hne)
  have hmem : last ∈ filter_probed today tomorrow probed date_range time_range :=
    List.mem_of_mem_getLast? hlast
  have hsub : last.subtimes ≠ [] := (hpart1 last hmem).1
  obtain ⟨st, hst⟩ := Option.isSome_iff_exists.mp
    (List.getLast?_isSome.mpr hsub)
  simp [pick_book_target, hlast, hst]

/-- Witness for `c10_filter_probed_invariants` on a concrete probed list
that survives the filters. -/
theorem c10_filter_probed_invariants_witness :
    filter_probed "12.10.2025" "13.10.2025"
      [⟨"26.02.2026", "16:00", ["16:10", "16:20"]⟩] "Yok" "13:00-" ≠ [] ∧
    (pick_book_target (filter_probed "12.10.2025" "13.10.2025"
      [⟨"26.02.2026", "16:00", ["16:10", "16:20"]⟩] "Yok" "13:00-")).isSome
      = true :=
  ⟨by decide, (c10_filter_probed_invariants "12.10.2025" "13.10.2025"
    [⟨"26.02.2026", "16:00", ["16:10", "16:20"]⟩] "Yok" "13:00-").2 (by decide)⟩

/-! ## C4 — the auto-book selection -/

/-- In a `Pairwise R`-ordered list, every element is the last one or
`R`-below it. -/
lemma pairwise_getLast? {α : Type} {R : α → α → Prop} :
    ∀ {l : List α} {b : α}, l.Pairwise R → l.getLast? = some b →
      ∀ a ∈ l, a = b ∨ R a b := by
  intro l
  induction l with
  | nil => intro b _ hb; cases hb
  | cons x xs ih =>
    intro b hp hb a ha
    rw [List.pairwise_cons] at hp
    cases xs with
    | nil =>
      have hxb : x = b := by simpa using hb
      have hax : a = x := by simpa using ha
      exact Or.inl (hax.trans hxb)
    | cons y ys =>
      rw [List.getLast?_cons_cons] at hb
      rcases List.mem_cons.mp ha with rfl | hmem
      · exact Or.inr (hp.1 b (List.mem_of_mem_getLast? hb))
      · exact ih hp.2 hb a hmem

/-- C4, counterexample: on the filtered list
`[{27.02.2026, 10:00, [10:10]}, {26.02.2026, 16:00, [16:10, 16:20]}]`
(dates not in ascending order), the `auto_book` branch selects the *last*
item, whose date `26.02.2026` is strictly earlier than the other filtered
slot's `27.02.2026` — not the slot with the furthest date. -/
theorem c4_not_furthest_date :
    pick_book_target
      [⟨"27.02.2026", "10:00", ["10:10"]⟩,
        ⟨"26.02.2026", "16:00", ["16:10", "16:20"]⟩]
      = some ⟨"26.02.2026", "16:00", "16:20"⟩ ∧
    (⟨"27.02.2026", "10:00", ["10:10"]⟩ : Slot) ∈
      [⟨"27.02.2026", "10:00", ["10:10"]⟩,
        (⟨"26.02.2026", "16:00", ["16:10", "16:20"]⟩ : Slot)] ∧
    parseDate "26.02.2026" = some ⟨2026, 2, 26⟩ ∧
    parseDate "27.02.2026" = some ⟨2026, 2, 27⟩ ∧
    Date.le ⟨2026, 2, 27⟩ ⟨2026, 2, 26⟩ = false := by
  refine ⟨by decide, by decide, by decide, by decide, by decide⟩

/-- C4, amended: the `auto_book` branch selects the last item of the
filtered list and, within it, the last sub-time.  When the filtered list
is ordered by ascending slot date and the selected slot's subtimes are
ordered by ascending time, this selection is maximal: every filtered slot
is the selected one or dates no later, and every sub-time of the selected
slot is the selected one or no later.  In particular, on
`[{date: 26.02.2026, hour: 16:00, subtimes: [16:10, 16:20]}]` it selects
sub-time `16:20`. -/
theorem c4_selects_last (filtered : List Slot) (l : Slot) (st : String)
    (hl : filtered.getLast? = some l) (hst : l.subtimes.getLast? = some st) :
    pick_book_target filtered = some ⟨l.date, l.hour, st⟩ ∧
    (filtered.Pairwise slot_date_le → ∀ a ∈ filtered, a = l ∨ slot_date_le a l) ∧
    (l.subtimes.Pairwise subtime_le → ∀ x ∈ l.subtimes, x = st ∨ subtime_le x st) ∧
    pick_book_target [⟨"26.02.2026", "16:00", ["16:10", "16:20"]⟩]
      = some ⟨"26.02.2026", "16:00", "16:20"⟩ := by
  refine ⟨?_, fun hp => pairwise_getLast? hp hl,
    fun hp => pairwise_getLast? hp hst, by decide⟩
  simp [pick_book_target, hl, hst]

/-- Witness for `c4_selects_last` on the singleton filtered list of the
claim. -/
theorem c4_selects_last_witness :
    pick_book_target [⟨"26.02.2026", "16:00", ["16:10", "16:20"]⟩]
      = some ⟨"26.02.2026", "16:00", "16:20"⟩ :=
  (c4_selects_last [⟨"26.02.2026", "16:00", ["16:10", "16:20"]⟩]
    ⟨"26.02.2026", "16:00", ["16:10", "16:20"]⟩ "16:20"
    (by decide) (by decide)).1

/-! ## C7 — the date filter -/

/-- C7, counterexample: under the `"bugun"` filter an unparseable slot
date does *not* pass through — the branch compares the raw string against
today's and tomorrow's formatted dates and rejects anything else, so the
claim's unconditional fail-open clause fails here. -/
theorem c7_bugun_rejects_unparseable :
    parseDate "xx.yy.zzzz" = none ∧
    date_matches "12.10.2025" "13.10.2025" "xx.yy.zzzz" "bugun" = false := by
  exact ⟨by decide, by decide⟩

/-- C7, amended: the `"bugun"` filter accepts exactly the strings equal to
today's or tomorrow's formatted date (rejecting unparseable slot dates by
literal comparison); under every non-`"bugun"` filter an unparseable slot
date passes through; a closed-range filter with parseable endpoints
accepts a parseable slot date iff it lies between the endpoints inclusive;
a non-range filter that fails to parse passes everything; a single-date
filter accepts a parseable slot date iff it equals that date.  In
particular, `24.02.2026-28.02.2026` accepts `26.02.2026` and rejects
`01.03.2026`. -/
theorem c7_date_filter (today tomorrow ds dr : String) (d s e : Date) :
    (dr = "bugun" →
      (date_matches today tomorrow ds dr = true ↔ (ds = today ∨ ds = tomorrow))) ∧
    (dr ≠ "bugun" → parseDate ds = none →
      date_matches today tomorrow ds dr = true) ∧
    (∀ p0 p1, dr ≠ "bugun" → parseDate ds = some d →
      dr.data.contains '-' = true → splitOnChar '-' dr.data = [p0, p1] →
      parseDateChars (stripChars p0) = some s →
      parseDateChars (stripChars p1) = some e →
      (date_matches today tomorrow ds dr = true ↔
        (Date.le s d = true ∧ Date.le d e = true))) ∧
    (dr ≠ "bugun" → parseDate ds = some d → dr.data.contains '-' = false →
      parseDateChars (stripChars dr.data) = none →
      date_matches today tomorrow ds dr = true) ∧
    (dr ≠ "bugun" → parseDate ds = some d → dr.data.contains '-' = false →
      parseDateChars (stripChars dr.data) = some s →
      (date_matches today tomorrow ds dr = true ↔ d = s)) ∧
    date_matches today tomorrow "26.02.2026" "24.02.2026-28.02.2026" = true ∧
    date_matches today tomorrow "01.03.2026" "24.02.2026-28.02.2026" = false := by
  refine ⟨?_, ?_, ?_, ?_, ?_, ?_, ?_⟩
  · intro h
    subst h
    simp [date_matches]
  · intro h hn
    simp [date_matches, h, hn]
  · intro p0 p1 h hd hcont hsplit hs he
    have hm : '-' ∈ dr.data := by simpa using hcont
    simp [date_matches, h, hd, hm, hsplit, hs, he]
  · intro h hd hcont hn
    have hm : '-' ∉ dr.data := by simpa using hcont
    simp [date_matches, h, hd, hm, hn]
  · intro h hd hcont hs
    have hm : '-' ∉ dr.data := by simpa using hcont
    simp [date_matches, h, hd, hm, hs]
  · simp only [date_matches]
    rw [if_neg (by decide)]
    decide
  · simp only [date_matches]
    rw [if_neg (by decide)]
    decide

/-- Witness for `c7_date_filter`: the closed-range clause instantiated at
the claim's own example. -/
theorem c7_date_filter_witness :
    date_matches "12.10.2025" "13.10.2025" "26.02.2026"
      "24.02.2026-28.02.2026" = true :=
  ((c7_date_filter "12.10.2025" "13.10.2025" "26.02.2026"
      "24.02.2026-28.02.2026" ⟨2026, 2, 26⟩ ⟨2026, 2, 24⟩ ⟨2026, 2, 28⟩).2.2.1
    "24.02.2026".data "28.02.2026".data (by decide) (by decide) (by decide)
    (by decide) (by decide) (by decide)).mpr ⟨by decide, by decide⟩

/-! ## C8 — the time filter -/

/-- C8: the pass-all token accepts everything; an unparseable slot time
passes through; an open-ended range `HH:MM-` accepts a parseable time iff
it is at or after the start; an open-started range `-HH:MM` accepts it iff
it is at or before the end; a closed range accepts it iff it lies between
the bounds inclusive; a nonempty bound that fails to parse passes
everything through.  In particular `13:00-` accepts `14:30` and rejects
`09:00`. -/
theorem c8_time_filter (ts tr : String) (t s e : Time) :
    (tr = "Yok" → time_matches ts tr = true) ∧
    (parseTimeChars (stripChars ts.data) = none → time_matches ts tr = true) ∧
    (∀ p0 p1 r, tr ≠ "" → tr ≠ "Yok" →
      parseTimeChars (stripChars ts.data) = some t →
      tr.data.contains '-' = true → splitOnChar '-' tr.data = p0 :: p1 :: r →
      tryParseBound (stripChars p0) = .ok (some s) →
      tryParseBound (stripChars p1) = .ok none →
      (time_matches ts tr = true ↔ Time.le s t = true)) ∧
    (∀ p0 p1 r, tr ≠ "" → tr ≠ "Yok" →
      parseTimeChars (stripChars ts.data) = some t →
      tr.data.contains '-' = true → splitOnChar '-' tr.data = p0 :: p1 :: r →
      tryParseBound (stripChars p0) = .ok none →
      tryParseBound (stripChars p1) = .ok (some e) →
      (time_matches ts tr = true ↔ Time.le t e = true)) ∧
    (∀ p0 p1 r, tr ≠ "" → tr ≠ "Yok" →
      parseTimeChars (stripChars ts.data) = some t →
      tr.data.contains '-' = true → splitOnChar '-' tr.data = p0 :: p1 :: r →
      tryParseBound (stripChars p0) = .ok (some s) →
      tryParseBound (stripChars p1) = .ok (some e) →
      (time_matches ts tr = true ↔
        (Time.le s t = true ∧ Time.le t e = true))) ∧
    (∀ p0 p1 r, tr ≠ "" → tr ≠ "Yok" →
      parseTimeChars (stripChars ts.data) = some t →
      tr.data.contains '-' = true → splitOnChar '-' tr.data = p0 :: p1 :: r →
      tryParseBound (stripChars p0) = .error () →
      time_matches ts tr = true) ∧
    time_matches "14:30" "13:00-" = true ∧
    time_matches "09:00" "13:00-" = false := by
  refine ⟨?_, ?_, ?_, ?_, ?_, ?_, by decide, by decide⟩
  · intro h
    simp [time_matches, h]
  · intro hn
    simp [time_matches, hn]
  · intro p0 p1 r h1 h2 ht hcont hsplit hb0 hb1
    have hm : '-' ∈ tr.data := by simpa using hcont
    simp [time_matches, h1, h2, ht, hm, hsplit, hb0, hb1]
  · intro p0 p1 r h1 h2 ht hcont hsplit hb0 hb1
    have hm : '-' ∈ tr.data := by simpa using hcont
    simp [time_matches, h1, h2, ht, hm, hsplit, hb0, hb1]
  · intro p0 p1 r h1 h2 ht hcont hsplit hb0 hb1
    have hm : '-' ∈ tr.data := by simpa using hcont
    simp [time_matches, h1, h2, ht, hm, hsplit, hb0, hb1]
  · intro p0 p1 r h1 h2 ht hcont hsplit hb0
    have hm : '-' ∈ tr.data := by simpa using hcont
    simp [time_matches, h1, h2, ht, hm, hsplit, hb0]

/-- Witness for `c8_time_filter`: the open-ended clause instantiated at
the claim's own example, `13:00-` accepting `14:30`. -/
theorem c8_time_filter_witness :
    time_matches "14:30" "13:00-" = true :=
  ((c8_time_filter "14:30" "13:00-" ⟨14, 30⟩ ⟨13, 0⟩ ⟨0, 0⟩).2.2.1
    "13:00".data [] [] (by decide) (by decide) (by decide) (by decide)
    (by decide) rfl rfl).mpr (by decide)

/-! ## C2 — monitor reactivation after a failed auto-booking -/

/-- Iterated `update_monitor(·, is_active=b)` over the rows of `ms` acts
on the table as one pass setting the flag on every row whose id occurs in
`ms`. -/
lemma foldl_update_eq_map (b : Bool) :
    ∀ (ms db : List MonitorRec),
      ms.foldl (fun acc m => update_monitor_active acc m.id b) db
        = db.map fun m =>
            if (ms.map MonitorRec.id).contains m.id
            then { m with is_active := b } else m := by
  intro ms
  induction ms with
  | nil =>
    intro db
    simp [List.contains]
  | cons a as ih =>
    intro db
    rw [List.foldl_cons, ih]
    unfold update_monitor_active
    rw [List.map_map]
    refine List.map_congr_left ?_
    intro m _
    by_cases h : m.id = a.id <;>
      by_cases h2 : ((as.map MonitorRec.id).contains m.id) = true <;>
      simp [Function.comp, h, h2]

/-- With unique ids, a row's id occurs among the ids of the `p`-filtered
table exactly when the row itself satisfies `p`. -/
lemma contains_filter_ids (db : List MonitorRec)
    (hN : (db.map MonitorRec.id).Nodup) (p : MonitorRec → Bool)
    (m : MonitorRec) (hm : m ∈ db) :
    ((db.filter p).map MonitorRec.id).contains m.id = p m := by
  cases hpm : p m with
  | false =>
    rw [Bool.eq_false_iff]
    intro hc
    have hmem : m.id ∈ (db.filter p).map MonitorRec.id := List.elem_iff.mp hc
    obtain ⟨m', hm', hid⟩ := List.mem_map.mp hmem
    obtain ⟨hm'db, hpm'⟩ := List.mem_filter.mp hm'
    have : m' = m := List.inj_on_of_nodup_map hN hm'db hm hid
    rw [this] at hpm'
    rw [hpm'] at hpm
    cases hpm
  | true =>
    have hmem : m.id ∈ (db.filter p).map MonitorRec.id :=
      List.mem_map_of_mem MonitorRec.id (List.mem_filter.mpr ⟨hm, hpm⟩)
    exact List.elem_iff.mpr hmem

/-- A whole-table map that preserves ids preserves the id column. -/
lemma map_ids_of_preserve (db : List MonitorRec) (g : MonitorRec → MonitorRec)
    (hg : ∀ m, (g m).id = m.id) :
    (db.map g).map MonitorRec.id = db.map MonitorRec.id := by
  rw [List.map_map]
  refine List.map_congr_left ?_
  intro m _
  exact hg m

/-- C2, counterexample: patient 7 has monitor 1 active and monitor 2
inactive before the flow.  The failed auto-booking flow deactivates
monitor 1, then — on failure — reactivates *every* inactive monitor of
patient 7, so monitor 2, which was already inactive before the flow
started, ends up active, contradicting the claim that it remains
inactive. -/
theorem c2_reactivates_preexisting_inactive :
    (⟨2, 7, false⟩ : MonitorRec) ∈ [(⟨1, 7, true⟩ : MonitorRec), ⟨2, 7, false⟩] ∧
    failed_booking_flow [⟨1, 7, true⟩, ⟨2, 7, false⟩] 7
      = [⟨1, 7, true⟩, ⟨2, 7, true⟩] := by
  exact ⟨by decide, by decide⟩

/-- C2, amended: when the auto-book flow's booking attempt fails, every
monitor of the patient is active afterwards — in particular every monitor
the flow deactivated is reactivated (the monitor is never lost), but a
monitor of that patient that was already inactive before the flow started
is reactivated as well, not left inactive.  Monitors of other patients are
untouched.  (`id` is the primary key of the monitors table, hence the
`Nodup` hypothesis.) -/
theorem c2_failed_booking_reactivation (db : List MonitorRec) (pid : Nat)
    (hN : (db.map MonitorRec.id).Nodup) :
    failed_booking_flow db pid
      = db.map fun m =>
          if m.patient_id = pid then { m with is_active := true } else m := by
  have hA : deactivate_for_booking db pid
      = db.map fun m =>
          if decide (m.patient_id = pid) && m.is_active
          then { m with is_active := false } else m := by
    rw [deactivate_for_booking, get_active_monitors, List.filter_filter,
      foldl_update_eq_map]
    refine List.map_congr_left ?_
    intro m hm
    rw [contains_filter_ids db hN (fun a => decide (a.patient_id = pid) && a.is_active) m hm]
  have hFid : ∀ m : MonitorRec,
      ((fun m => if decide (m.patient_id = pid) && m.is_active
        then { m with is_active := false } else m) m).id = m.id := by
    intro m
    cases h : decide (m.patient_id = pid) && m.is_active <;> simp [h]
  have hN' : (((db.map fun m =>
      if decide (m.patient_id = pid) && m.is_active
      then { m with is_active := false } else m).map MonitorRec.id)).Nodup := by
    rw [map_ids_of_preserve db _ hFid]
    exact hN
  have hB : reactivate_after_failure (deactivate_for_booking db pid) pid
      = (db.map fun m =>
          if decide (m.patient_id = pid) && m.is_active
          then { m with is_active := false } else m).map fun m =>
            if decide (m.patient_id = pid) && !m.is_active
            then { m with is_active := true } else m := by
    rw [hA, reactivate_after_failure, foldl_update_eq_map]
    refine List.map_congr_left ?_
    intro m hm
    rw [contains_filter_ids _ hN' (fun a => decide (a.patient_id = pid) && !a.is_active) m hm]
  rw [failed_booking_flow, hB, List.map_map]
  refine List.map_congr_left ?_
  intro m _
  by_cases hp : m.patient_id = pid
  · cases ha : m.is_active <;> simp [Function.comp, hp, ha]
  · cases ha : m.is_active <;> simp [Function.comp, hp, ha]

/-- Witness for `c2_failed_booking_reactivation` on the counterexample
database. -/
theorem c2_failed_booking_reactivation_witness :
    ((([(⟨1, 7, true⟩ : MonitorRec), ⟨2, 7, false⟩]).map MonitorRec.id).Nodup) ∧
    failed_booking_flow [⟨1, 7, true⟩, ⟨2, 7, false⟩] 7
      = ([(⟨1, 7, true⟩ : MonitorRec), ⟨2, 7, false⟩]).map fun m =>
          if m.patient_id = 7 then { m with is_active := true } else m :=
  ⟨by decide, c2_failed_booking_reactivation [⟨1, 7, true⟩, ⟨2, 7, false⟩] 7
    (by decide)⟩

end Hacrandevu
